import Mathlib

/-!
# Verification of the playlist ingestion & track-resolution engine

Shallow embedding of the core parsing service of the repository
(`src/services/playlistService.ts` and the MusicKit service variant in
`src/unnamed/part_001`).  Strings are modelled as `List Char`; the JavaScript
regular-expression operations used by the source are embedded as explicit
scanning functions whose semantics match the (deterministic) behaviour of the
concrete regexes appearing in the source.  `String.prototype.toLowerCase` is
modelled by the ASCII lowercase map (every string constant compared against by
the source is ASCII).  IEEE-754 double arithmetic in the confidence estimator
is modelled by exact rational arithmetic; all constants and thresholds involved
are far enough apart that rounding cannot affect any compared outcome.
-/

namespace Spottle

/-- The JavaScript `\s` character class (also the set removed by
`String.prototype.trim`): space, tab, LF, VT, FF, CR, NBSP and the Unicode
space separators used by the ECMAScript definition of WhiteSpace and
LineTerminator. -/
def isWsChar (c : Char) : Bool :=
  c.toNat = 32 || c.toNat = 9 || c.toNat = 10 || c.toNat = 11 || c.toNat = 12 ||
  c.toNat = 13 || c.toNat = 0xa0 || c.toNat = 0x1680 ||
  (0x2000 ≤ c.toNat && c.toNat ≤ 0x200a) ||
  c.toNat = 0x2028 || c.toNat = 0x2029 || c.toNat = 0x202f ||
  c.toNat = 0x205f || c.toNat = 0x3000 || c.toNat = 0xfeff

/-- The quote characters stripped by `cleanField`: `"`, `'` and the backquote
(code points 34, 39, 96), i.e. the regex class used in
`value.replace(/^[\"'\x60]+/, "").replace(/[\"'\x60]+$/, "")`. -/
def isQuoteChar (c : Char) : Bool :=
  c.toNat = 34 || c.toNat = 39 || c.toNat = 96

/-- ASCII decimal digit, the JavaScript `\d` class. -/
def isDigitChar (c : Char) : Bool :=
  48 ≤ c.toNat && c.toNat ≤ 57

/-- ASCII letter (`[a-z]` with the `i` flag). -/
def isAsciiAlphaChar (c : Char) : Bool :=
  (65 ≤ c.toNat && c.toNat ≤ 90) || (97 ≤ c.toNat && c.toNat ≤ 122)

/-- The `[a-zA-Z0-9]` class used for playlist identifiers. -/
def isAlnumChar (c : Char) : Bool :=
  isAsciiAlphaChar c || isDigitChar c

/-- ASCII lowercase map, the embedding of `String.prototype.toLowerCase` (all
string constants the source compares against are ASCII). -/
def toLowerChar (c : Char) : Char :=
  if 65 ≤ c.toNat && c.toNat ≤ 90 then Char.ofNat (c.toNat + 32) else c

/-- `value.toLowerCase()`. -/
def toLowerList (l : List Char) : List Char :=
  l.map toLowerChar

/-- `String.prototype.trim` (drops the `isWsChar` set from both ends). -/
def jsTrim (l : List Char) : List Char :=
  (l.dropWhile isWsChar).rdropWhile isWsChar

/-- One step of the global replace `/\s+/g → " "`: every maximal run of
whitespace characters is replaced by a single space `' '`. -/
def collapseWs : List Char → List Char
  | [] => []
  | [c] => if isWsChar c then [' '] else [c]
  | a :: b :: rest =>
    if isWsChar a then
      if isWsChar b then collapseWs (b :: rest)
      else ' ' :: collapseWs (b :: rest)
    else a :: collapseWs (b :: rest)

/-- `cleanField` from `src/services/playlistService.ts`:
`value.replace(/^[\"'\x60]+/, "").replace(/[\"'\x60]+$/, "")
      .replace(/\s+/g, " ").trim()`. -/
def cleanField (value : List Char) : List Char :=
  jsTrim (collapseWs ((value.dropWhile isQuoteChar).rdropWhile isQuoteChar))

/-- All whitespace characters occurring in `l` are plain spaces (an invariant
of the output of `collapseWs`). -/
abbrev WsIsSpace (l : List Char) : Prop :=
  ∀ c ∈ l, isWsChar c = true → c = ' '

/-- No two adjacent whitespace characters (an invariant of the output of
`collapseWs`). -/
abbrev NoAdjWs (l : List Char) : Prop :=
  l.Chain' fun a b => ¬(isWsChar a = true ∧ isWsChar b = true)

/-- `hay.startsWith(needle)` on character lists. -/
def startsWithList : List Char → List Char → Bool
  | _, [] => true
  | [], _ :: _ => false
  | a :: hay, b :: needle => a = b && startsWithList hay needle

/-- `hay.includes(needle)`: `needle` occurs as a contiguous substring. -/
def includesList : List Char → List Char → Bool
  | [], needle => startsWithList [] needle
  | c :: t, needle => startsWithList (c :: t) needle || includesList t needle

/-- Case-insensitive prefix test (a regex literal under the `i` flag matched
at the current position). -/
def startsWithCI (hay needle : List Char) : Bool :=
  startsWithList (toLowerList hay) (toLowerList needle)

/-- `hay.endsWith(needle)` on character lists. -/
def endsWithList (hay needle : List Char) : Bool :=
  startsWithList hay.reverse needle.reverse

/-- `TITLE_HINTS` from `src/services/playlistService.ts`. -/
def TITLE_HINTS : List (List Char) :=
  ["remix".toList, "mix".toList, "edit".toList, "version".toList, "live".toList,
   "demo".toList, "acoustic".toList, "instrumental".toList, "remaster".toList,
   "remastered".toList, "radio".toList, "extended".toList, "feat".toList,
   "ft".toList, "featuring".toList]

/-- The bracket class actually tested by `scoreTitle`'s regex `/[([{\]]/`:
`(`, `[`, `{` and `]` (the closing parenthesis is not in the class). -/
def isCodeBracketChar (c : Char) : Bool :=
  c = '(' || c = '[' || c = '{' || c = ']'

/-- The bracket set named by the specification: `(`, `)`, `[`, `]`, `{`. -/
def isClaimBracketChar (c : Char) : Bool :=
  c = '(' || c = ')' || c = '[' || c = ']' || c = '{'

/-- `/\d{4}/.test(value)`: some four consecutive ASCII digits occur. -/
def hasFourDigitRun : List Char → Bool
  | a :: b :: c :: d :: rest =>
    (isDigitChar a && isDigitChar b && isDigitChar c && isDigitChar d) ||
      hasFourDigitRun (b :: c :: d :: rest)
  | _ => false

/-- `scoreTitle` from `src/services/playlistService.ts`: +2 per hint keyword
contained in the lowercased fragment (accumulated over `TITLE_HINTS` in
order), +1 if the `/[([{\]]/` class occurs, +1 if a four-digit run occurs. -/
def scoreTitle (value : List Char) : Nat :=
  let lower := toLowerList value
  let score := TITLE_HINTS.foldl
    (fun acc hint => if includesList lower hint then acc + 2 else acc) 0
  let score := if value.any isCodeBracketChar then score + 1 else score
  if hasFourDigitRun value then score + 1 else score

/-- The title score as worded by the claim/spec (notably with `)` included in
the bracket set): +2 per keyword occurring as a case-insensitive substring,
+1 for a bracket character among `( ) [ ] {`, +1 for a 4-digit run. -/
def specScoreTitleClaimed (value : List Char) : Nat :=
  (TITLE_HINTS.map fun hint =>
      if includesList (toLowerList value) hint then 2 else 0).sum
  + (if value.any isClaimBracketChar then 1 else 0)
  + (if hasFourDigitRun value then 1 else 0)

/-- The claim's formula amended to the bracket set the code actually tests
(`(`, `[`, `{`, `]` — no `)`). -/
def specScoreTitleAmended (value : List Char) : Nat :=
  (TITLE_HINTS.map fun hint =>
      if includesList (toLowerList value) hint then 2 else 0).sum
  + (if value.any isCodeBracketChar then 1 else 0)
  + (if hasFourDigitRun value then 1 else 0)

/-- `scoreArtist` from `src/services/playlistService.ts`: one point for each
of the five independent collaboration signals. -/
def scoreArtist (value : List Char) : Nat :=
  let lower := toLowerList value
  let score := if value.any (· = '&') then 1 else 0
  let score := if includesList lower (" x ".toList) then score + 1 else score
  let score := if includesList lower (" vs ".toList) then score + 1 else score
  let score := if includesList lower (" and ".toList) then score + 1 else score
  if includesList lower (" with ".toList) then score + 1 else score

/-- Result record of the disambiguator (`{ title, artist }`). -/
structure TitleArtist where
  title : List Char
  artist : List Char
deriving DecidableEq

/-- `resolveTitleArtist` from `src/services/playlistService.ts`. -/
def resolveTitleArtist (left right : List Char) : TitleArtist :=
  let leftTitleScore := scoreTitle left
  let rightTitleScore := scoreTitle right
  let leftArtistScore := scoreArtist left
  let rightArtistScore := scoreArtist right
  if leftTitleScore > rightTitleScore ∧ rightArtistScore ≥ leftArtistScore then
    ⟨left, right⟩
  else if rightTitleScore > leftTitleScore ∧ leftArtistScore ≥ rightArtistScore then
    ⟨right, left⟩
  else if rightArtistScore > leftArtistScore then ⟨left, right⟩
  else if leftArtistScore > rightArtistScore then ⟨right, left⟩
  else ⟨left, right⟩

/-- A parsed `{title, artist, album}` triple (`ParsedTrack` in the source). -/
structure ParsedTrack where
  title : List Char
  artist : List Char
  album : List Char
deriving DecidableEq

/-- Split a character list at every occurrence of the character `d`
(`String.prototype.split` with a plain one-character separator). -/
def splitOnCharAux (d : Char) : List Char → List Char → List (List Char)
  | accRev, [] => [accRev.reverse]
  | accRev, c :: rest =>
    if c = d then accRev.reverse :: splitOnCharAux d [] rest
    else splitOnCharAux d (c :: accRev) rest

/-- `value.split(d)` for a single-character separator `d`. -/
def splitOnChar (d : Char) (l : List Char) : List (List Char) :=
  splitOnCharAux d [] l

/-- Helper for `splitWsDelim`: the parts after the first one.  Interior parts
lose the whitespace on both of their ends (it is absorbed by the `\s*` of the
surrounding matches); the final part loses only its leading whitespace. -/
def splitWsDelimRest : List (List Char) → List (List Char)
  | [] => []
  | [q] => [q.dropWhile isWsChar]
  | q :: q2 :: qs => jsTrim q :: splitWsDelimRest (q2 :: qs)

/-- `value.split(/\s*D\s*/)` for a one-character delimiter `D` (used with
`;`, `•`, `|` and `,` by the source).  A (leftmost, non-overlapping) match of
`\s*D\s*` is an occurrence of `D` together with the maximal whitespace runs
immediately before and after it; matches are therefore in bijection with the
occurrences of `D`, the part before the first match keeps its leading but
loses its trailing whitespace, interior parts lose both, and the part after
the last match loses only its leading whitespace. -/
def splitWsDelim (d : Char) (l : List Char) : List (List Char) :=
  match splitOnChar d l with
  | [] => [l]
  | [p] => [p]
  | p :: p2 :: ps => p.rdropWhile isWsChar :: splitWsDelimRest (p2 :: ps)

/-- The dash characters of the class `[-–—]`. -/
def isDashChar (c : Char) : Bool :=
  c.toNat = 45 || c.toNat = 0x2013 || c.toNat = 0x2014

/-- Scanner for `value.split(/\s[-–—]\s/)`: a match is exactly one
whitespace character, a dash, and one whitespace character. -/
def splitDashAux : List Char → List Char → List (List Char)
  | accRev, a :: b :: c :: rest =>
    if isWsChar a && isDashChar b && isWsChar c then
      accRev.reverse :: splitDashAux [] rest
    else
      splitDashAux (a :: accRev) (b :: c :: rest)
  | accRev, l => [accRev.reverse ++ l]

/-- `value.split(/\s[-–—]\s/)`. -/
def splitDash (l : List Char) : List (List Char) :=
  splitDashAux [] l

/-- Scanner for `value.split(/\t+/)`: split on maximal runs of tabs.  The
Boolean state records whether the scanner is currently inside a tab run (the
part boundary was already emitted when the run started). -/
def splitTabsAux : Bool → List Char → List Char → List (List Char)
  | inRun, accRev, [] => if inRun then [[]] else [accRev.reverse]
  | inRun, accRev, c :: rest =>
    if inRun then
      if c = '\t' then splitTabsAux true accRev rest
      else splitTabsAux false [c] rest
    else
      if c = '\t' then accRev.reverse :: splitTabsAux true [] rest
      else splitTabsAux false (c :: accRev) rest

/-- `value.split(/\t+/)`. -/
def splitTabs (l : List Char) : List (List Char) :=
  splitTabsAux false [] l

/-- The `.map(cleanField).filter(Boolean)` tail of `splitParts` in the
source. -/
def cleanParts (parts : List (List Char)) : List (List Char) :=
  (parts.map cleanField).filter (· ≠ [])

/-- The bullet/dash/star/plus class `[•\-\*\+]` of `stripLinePrefix`. -/
def isBulletChar (c : Char) : Bool :=
  c.toNat = 0x2022 || c.toNat = 45 || c.toNat = 42 || c.toNat = 43

/-- The replace `^\s*\d+\s*[\.\)\-:]\s*` → `""` (first step of the source's
`stripLinePrefix`): a leading number followed by `.`, `)`, `-` or `:`. -/
def stripLeadingNumber (l : List Char) : List Char :=
  let r1 := l.dropWhile isWsChar
  if r1.takeWhile isDigitChar = [] then l
  else
    match (r1.dropWhile isDigitChar).dropWhile isWsChar with
    | c :: rest =>
      if c = '.' || c = ')' || c = '-' || c = ':' then rest.dropWhile isWsChar
      else l
    | [] => l

/-- The replace `^\s*[•\-\*\+]+\s*` → `""` (second step of the source's
`stripLinePrefix`). -/
def stripLeadingBullets (l : List Char) : List Char :=
  let r1 := l.dropWhile isWsChar
  if r1.takeWhile isBulletChar = [] then l
  else (r1.dropWhile isBulletChar).dropWhile isWsChar

/-- `stripLinePrefix` from `src/services/playlistService.ts` (trim, strip a
numbered prefix, strip a bullet marker run, trim). -/
def stripLineMarker (line : List Char) : List Char :=
  jsTrim (stripLeadingBullets (stripLeadingNumber (jsTrim line)))

/-- Try to match `\s+by\s+(.+)$` (case-insensitive `by`) at the start of `l`,
returning the capture group.  Mirrors the deterministic backtracking of the
JavaScript engine: both `\s+` are effectively maximal, except that when the
tail after `by` is all whitespace the final `\s+` gives back exactly one
(non-newline) character so that `(.+)` is non-empty. -/
def bySuffixMatch (l : List Char) : Option (List Char) :=
  if l.takeWhile isWsChar = [] then none
  else
    match l.dropWhile isWsChar with
    | b :: y :: rest2 =>
      if toLowerChar b = 'b' && toLowerChar y = 'y' then
        if rest2.takeWhile isWsChar = [] then none
        else
          let r := rest2.dropWhile isWsChar
          if r = [] then
            match rest2.getLast? with
            | some c =>
              if 2 ≤ rest2.length && c ≠ '\n' then some [c] else none
            | none => none
          else if r.all (· ≠ '\n') then some r
          else none
      else none
    | _ => none

/-- Scan for the lazy group of `^(.*?)\s+by\s+(.+)$`: the earliest split
position whose suffix matches `\s+by\s+(.+)$`; the group-1 characters must
all be non-newline (the dot does not match `\n`). -/
def byMatchAux : List Char → List Char → Option (List Char × List Char)
  | accRev, l =>
    match bySuffixMatch l with
    | some g2 => some (accRev.reverse, g2)
    | none =>
      match l with
      | [] => none
      | c :: rest => if c = '\n' then none else byMatchAux (c :: accRev) rest

/-- `cleaned.match(/^(.*?)\s+by\s+(.+)$/i)` returning the two groups. -/
def byMatch (l : List Char) : Option (List Char × List Char) :=
  byMatchAux [] l

/-- `buildFromParts` from `src/services/playlistService.ts`. -/
def buildFromParts (parts : List (List Char)) : Option ParsedTrack :=
  match parts with
  | first :: second :: rest =>
    let ta := resolveTitleArtist first second
    let album := if rest ≠ [] then cleanField (List.intercalate (" - ".toList) rest) else []
    if ta.title = [] ∨ ta.artist = [] then none
    else some ⟨ta.title, ta.artist, album⟩
  | _ => none

/-- `parseTrackLine` from `src/services/playlistService.ts`: strip prefixes,
then try the `by` pattern, tab split, dash split, pipe split, and finally a
two-part comma split. -/
def parseTrackLine (line : List Char) : Option ParsedTrack :=
  let cleaned := stripLineMarker line
  if cleaned = [] then none
  else
    match byMatch cleaned with
    | some (g1, g2) =>
      let title := cleanField g1
      let artist := cleanField g2
      if title = [] ∨ artist = [] then none
      else some ⟨title, artist, []⟩
    | none =>
      if cleaned.any (· = '\t') then
        buildFromParts (cleanParts (splitTabs cleaned))
      else
        let dashParts := cleanParts (splitDash cleaned)
        if 2 ≤ dashParts.length then buildFromParts dashParts
        else
          let pipeParts := cleanParts (splitWsDelim '|' cleaned)
          if 2 ≤ pipeParts.length then buildFromParts pipeParts
          else
            let commaParts := cleanParts (splitWsDelim ',' cleaned)
            if commaParts.length = 2 then buildFromParts commaParts
            else none

/-- The global replace `/\r\n/g` → `"\n"`. -/
def replaceCrLf : List Char → List Char
  | [] => []
  | '\r' :: '\n' :: rest => '\n' :: replaceCrLf rest
  | c :: rest => c :: replaceCrLf rest

/-- The global replace `/\r/g` → `"\n"`. -/
def replaceCr : List Char → List Char
  | [] => []
  | c :: rest => (if c = '\r' then '\n' else c) :: replaceCr rest

/-- The newline-split stage of `splitCandidateLines`: normalize line endings,
split on `\n`, trim every line and drop the empty ones. -/
def newlineLines (text : List Char) : List (List Char) :=
  ((splitOnChar '\n' (replaceCr (replaceCrLf text))).map jsTrim).filter (· ≠ [])

/-- The bullet character `•` (U+2022). -/
def bulletDot : Char := Char.ofNat 0x2022

/-- `splitCandidateLines` from `src/services/playlistService.ts`: newline
split; if exactly one non-empty line remains, fall back to a semicolon split
and then to a bullet split when they produce more than one part. -/
def splitCandidateLines (text : List Char) : List (List Char) :=
  let lines := newlineLines text
  if lines.length = 1 then
    let single := lines.headD []
    let semicolonSplit := ((splitWsDelim ';' single).map jsTrim).filter (· ≠ [])
    if 1 < semicolonSplit.length then semicolonSplit
    else
      let bulletSplit := ((splitWsDelim bulletDot single).map jsTrim).filter (· ≠ [])
      if 1 < bulletSplit.length then bulletSplit
      else lines
  else lines

/-- Match `^playlist\s*[:\-]\s*(.+)$` (case-insensitive) and return the
capture.  The trailing `\s*(.+)$` behaves like the corresponding part of the
`by` pattern: when the tail is all whitespace the capture is its last
(non-newline) character, and a newline inside the capture kills the match. -/
def matchPlaylistHeader (l : List Char) : Option (List Char) :=
  if startsWithCI l ("playlist".toList) then
    match (l.drop 8).dropWhile isWsChar with
    | c :: rest =>
      if c = ':' || c = '-' then
        let r := rest.dropWhile isWsChar
        if r = [] then
          match rest.getLast? with
          | some d => if rest.length ≥ 1 && d ≠ '\n' then some [d] else none
          | none => none
        else if r.all (· ≠ '\n') then some r
        else none
      else none
    | [] => none
  else none

/-- The fixed default playlist name. -/
def defaultPlaylistName : List Char := "My Migrated Playlist".toList

/-- `derivePlaylistName` from `src/services/playlistService.ts`, returning the
name and the start index of the track lines. -/
def derivePlaylistName (lines : List (List Char))
    (parsedTracks : List (Option ParsedTrack)) : List Char × Nat :=
  match lines with
  | [] => (defaultPlaylistName, 0)
  | l0 :: _ =>
    match matchPlaylistHeader l0 with
    | some cap =>
      let n := cleanField cap
      (if n = [] then defaultPlaylistName else n, 1)
    | none =>
      if (parsedTracks.headD none).isNone ∧ (parsedTracks.drop 1).any (·.isSome) then
        let n := cleanField l0
        (if n = [] then defaultPlaylistName else n, 1)
      else (defaultPlaylistName, 0)

/-- `isSingleToken`: `!/\s/.test(value.trim())`. -/
def isSingleToken (value : List Char) : Bool :=
  (jsTrim value).all fun c => !isWsChar c

/-- `isStandaloneUrl`: `/^https?:\/\/\S+$/i.test(value.trim())`. -/
def isStandaloneUrl (value : List Char) : Bool :=
  let t := jsTrim value
  if startsWithCI t ("http".toList) then
    let r := t.drop 4
    let r2 := if startsWithCI r ("s".toList) then r.drop 1 else r
    startsWithList r2 ("://".toList) &&
      (let rest := r2.drop 3
       !rest.isEmpty && rest.all fun c => !isWsChar c)
  else false

/-- `/^[a-z]+:\/\//i.test(trimmed)`: an explicit scheme mark. -/
def hasSchemeMark (l : List Char) : Bool :=
  let alpha := l.takeWhile isAsciiAlphaChar
  !alpha.isEmpty && startsWithList (l.drop alpha.length) ("://".toList)

/-- The `hostname`/`pathname` pair of a parsed URL. -/
structure UrlModel where
  hostname : List Char
  pathname : List Char
deriving DecidableEq

/-- Everything after the last `@` of an authority component (userinfo is
dropped by the URL parser). -/
def afterLastAt (l : List Char) : List Char :=
  ((l.reverse).takeWhile (· ≠ '@')).reverse

/-- Model of the WHATWG `new URL(...)` constructor for the inputs this
service builds (a `scheme://` URL without IPv6 literals or percent-escapes):
the authority runs to the first `/`, `?` or `#`; userinfo up to the last `@`
is dropped; a port introduced by `:` must be empty or all digits, otherwise
the constructor throws (`none`); the hostname is lowercased; the pathname is
the segment up to `?` or `#`, defaulting to `/`. -/
def parseUrlModel (s : List Char) : Option UrlModel :=
  let scheme := s.takeWhile isAsciiAlphaChar
  let rest := s.drop scheme.length
  if scheme.isEmpty || !startsWithList rest ("://".toList) then none
  else
    let afterScheme := rest.drop 3
    let authority := afterScheme.takeWhile fun c => c ≠ '/' && c ≠ '?' && c ≠ '#'
    let afterAuth := afterScheme.drop authority.length
    let hostport := if authority.any (· = '@') then afterLastAt authority else authority
    let host := hostport.takeWhile (· ≠ ':')
    let port := (hostport.dropWhile (· ≠ ':')).drop 1
    if host.isEmpty then none
    else if hostport.any (· = ':') && !port.all isDigitChar then none
    else
      let path := afterAuth.takeWhile fun c => c ≠ '?' && c ≠ '#'
      some ⟨toLowerList host, if path.isEmpty then "/".toList else path⟩

/-- `normalizeSpotifyUrl` from `src/services/playlistService.ts`. -/
def normalizeSpotifyUrl (value : List Char) : Option UrlModel :=
  let trimmed := jsTrim value
  let withScheme := if hasSchemeMark trimmed then trimmed else ("https://".toList ++ trimmed)
  parseUrlModel withScheme

/-- `^spotify:playlist:([a-zA-Z0-9]+)$`. -/
def spotifyUriMatch (l : List Char) : Option (List Char) :=
  if startsWithList l ("spotify:playlist:".toList) then
    let idpart := l.drop 17
    if !idpart.isEmpty && idpart.all isAlnumChar then some idpart else none
  else none

/-- Try `\/(?:embed\/)?playlist\/([a-zA-Z0-9]+)` (case-insensitive) at the
start of `l`; the capture is the maximal alphanumeric run. -/
def matchPlaylistPathAt (l : List Char) : Option (List Char) :=
  match l with
  | c :: rest =>
    if c = '/' then
      let afterEmbed := if startsWithCI rest ("embed/".toList) then rest.drop 6 else rest
      if startsWithCI afterEmbed ("playlist/".toList) then
        let idrun := (afterEmbed.drop 9).takeWhile isAlnumChar
        if idrun.isEmpty then none else some idrun
      else none
    else none
  | [] => none

/-- `pathname.match(/\/(?:embed\/)?playlist\/([a-zA-Z0-9]+)/i)`: leftmost
occurrence anywhere in the pathname. -/
def pathPlaylistSearch : List Char → Option (List Char)
  | [] => none
  | c :: rest =>
    match matchPlaylistPathAt (c :: rest) with
    | some id => some id
    | none => pathPlaylistSearch rest

/-- `extractSpotifyPlaylistId` from `src/services/playlistService.ts`. -/
def extractSpotifyPlaylistId (value : List Char) : Option (List Char) :=
  let trimmed := jsTrim value
  if trimmed.isEmpty || !isSingleToken trimmed then none
  else
    match spotifyUriMatch trimmed with
    | some id => some id
    | none =>
      match normalizeSpotifyUrl trimmed with
      | none => none
      | some url =>
        let host := toLowerList url.hostname
        if endsWithList host ("spotify.com".toList) then
          pathPlaylistSearch url.pathname
        else none

/-- A track record of the manifest (`Track` in `src/types.ts`; the optional
`confidence` field, set only later by the matching stage, is omitted). -/
structure TrackRec where
  id : List Char
  title : List Char
  artist : List Char
  album : List Char
  status : List Char
deriving DecidableEq

/-- A `{name, tracks}` manifest. -/
structure Manifest where
  name : List Char
  tracks : List TrackRec
deriving DecidableEq

/-- `trackList.map((track, index) => ({...track, id: "track-" + index,
status: "pending"}))`. -/
def mkOutTracks (trackList : List ParsedTrack) : List TrackRec :=
  trackList.enum.map fun p =>
    ⟨("track-" ++ Nat.repr p.1).toList, p.2.title, p.2.artist, p.2.album, "pending".toList⟩

/-- The input of `parsePlaylistData`: a pasted string, or a non-string
(image) payload. -/
inductive ParseInput where
  | text (s : List Char)
  | file
deriving DecidableEq

/-- The outcome of `parsePlaylistData` when it does not throw: either the
dispatch to the remote fetcher with the extracted playlist id, or a locally
parsed manifest. -/
inductive ParsePath where
  | remote (id : List Char)
  | parsed (m : Manifest)
deriving DecidableEq

def imageErrMsg : List Char :=
  "Image parsing is not supported. Paste a text track list instead.".toList

def emptyErrMsg : List Char := "Paste a track list to continue.".toList

def unsupportedLinkMsg : List Char :=
  "Only Spotify playlist links are supported. Paste the track list instead.".toList

def noTracksLinesMsg : List Char := "No tracks found. Try one track per line.".toList

def noTracksParsedMsg : List Char :=
  "No tracks found. Use formats like 'Song - Artist' or 'Artist - Song'.".toList

/-- `parsePlaylistData` from `src/services/playlistService.ts`.  The remote
branch (a recognized Spotify playlist id) is represented by the
`ParsePath.remote` constructor; the network interaction itself is modelled
separately by `fetchSpotifyPlaylistModel`. -/
def parsePlaylistData : ParseInput → Except (List Char) ParsePath
  | .file => .error imageErrMsg
  | .text input =>
    let text := jsTrim input
    if text.isEmpty then .error emptyErrMsg
    else
      match extractSpotifyPlaylistId text with
      | some id => .ok (.remote id)
      | none =>
        if isStandaloneUrl text then .error unsupportedLinkMsg
        else
          let lines := splitCandidateLines text
          if lines.isEmpty then .error noTracksLinesMsg
          else
            let parsedTracks := lines.map parseTrackLine
            let nameStart := derivePlaylistName lines parsedTracks
            let trackList := (parsedTracks.drop nameStart.2).filterMap id
            if trackList.isEmpty then .error noTracksParsedMsg
            else .ok (.parsed ⟨nameStart.1, mkOutTracks trackList⟩)

/-- `SpotifyTrack`: `{name?, artists?: {name?}[], album?: {name?} | null}`.
The `album` field distinguishes absent/null (outer `none`) from an album
object with an absent name (inner `none`). -/
structure SpTrack where
  name : Option (List Char)
  artists : Option (List (Option (List Char)))
  album : Option (Option (List Char))
deriving DecidableEq

/-- `SpotifyPlaylistTrackItem`: `{track?: SpotifyTrack | null}`. -/
structure SpItem where
  track : Option SpTrack
deriving DecidableEq

/-- A `{items?, next?}` page body (`SpotifyTracksPage`, or the `tracks`
member of the playlist envelope).  `items = some l` corresponds to
`Array.isArray(x.items)`. -/
structure SpPage where
  items : Option (List SpItem)
  next : Option (List Char)
deriving DecidableEq

/-- A parsed response body: the playlist envelope (the `"tracks" in data`
branch, with an optional `tracks` member) or a bare page of tracks. -/
inductive SpBody where
  | envelope (name : Option (List Char)) (tracks : Option SpPage)
  | page (p : SpPage)
deriving DecidableEq

/-- One network interaction of the pagination loop: a thrown `fetch`
(transport error), a non-`ok` HTTP status, or a parsed JSON body. -/
inductive FetchResponse where
  | transportError
  | httpError (status : Nat)
  | ok (body : SpBody)
deriving DecidableEq

def notFoundMsg : List Char := "Spotify playlist not found or not public.".toList

def accessDeniedMsg : List Char :=
  "Spotify playlist could not be accessed. Paste the track list instead.".toList

def requestFailedMsg : List Char :=
  "Spotify request failed. Paste the track list instead.".toList

def noTracksSpotifyMsg : List Char := "No tracks found in the Spotify playlist.".toList

/-- The error message produced by a failing response of the loop. -/
def failMsg : FetchResponse → List Char
  | .transportError => requestFailedMsg
  | .httpError status =>
    if status = 404 then notFoundMsg
    else if status = 401 ∨ status = 403 then accessDeniedMsg
    else requestFailedMsg
  | .ok _ => []

/-- `true` on the responses that abort the loop. -/
def respFails : FetchResponse → Bool
  | .ok _ => false
  | _ => true

/-- The `name` capture of one loop iteration: `if (!name && data.name)
name = data.name` (only the envelope branch has a name). -/
def bodyName (current : List Char) : SpBody → List Char
  | .envelope (some n) _ => if current.isEmpty && !n.isEmpty then n else current
  | _ => current

/-- The items appended by one loop iteration (nothing unless the relevant
`items` member is an array). -/
def bodyItems : SpBody → List SpItem
  | .envelope _ (some p) => p.items.getD []
  | .envelope _ none => []
  | .page p => p.items.getD []

/-- The continuation cursor of one response
(`data.tracks?.next ?? null` resp. `page.next ?? null`). -/
def bodyNext : SpBody → Option (List Char)
  | .envelope _ t => t.bind (·.next)
  | .page p => p.next

/-- `next` is truthy, so the `while (nextUrl)` loop issues another request. -/
def bodyContinues (b : SpBody) : Bool :=
  match bodyNext b with
  | some u => !u.isEmpty
  | none => false

/-- The pagination loop of `fetchSpotifyPlaylist`, consuming the responses to
its successive requests in order.  Returns `none` if the loop wants another
page but no response is supplied, `some (.error msg)` when a response aborts
the loop, and `some (.ok (name, items))` on normal termination. -/
def fetchPagesLoop : List FetchResponse → List Char → List SpItem →
    Option (Except (List Char) (List Char × List SpItem))
  | [], _, _ => none
  | r :: rest, name, acc =>
    match r with
    | .transportError => some (.error requestFailedMsg)
    | .httpError status => some (.error (failMsg (.httpError status)))
    | .ok body =>
      let name2 := bodyName name body
      let acc2 := acc ++ bodyItems body
      if bodyContinues body then fetchPagesLoop rest name2 acc2
      else some (.ok (name2, acc2))

/-- The post-loop mapping of `fetchSpotifyPlaylist`: unwrap `item.track`,
clean the fields (joining artist names with `", "`), and drop tracks with an
empty title or artist. -/
def buildSpotifyTracks (items : List SpItem) : List ParsedTrack :=
  ((items.filterMap (·.track)).map fun t =>
    ({ title := cleanField (t.name.getD []),
       artist := cleanField (List.intercalate (", ".toList)
         (((t.artists.getD []).map (fun a => a.getD [])).filter (· ≠ []))),
       album := cleanField ((t.album.getD none).getD []) } : ParsedTrack)).filter
    fun t => t.title ≠ [] ∧ t.artist ≠ []

/-- `fetchSpotifyPlaylist` from `src/services/playlistService.ts`, as a
function of the sequence of responses served to its requests. -/
def fetchSpotifyPlaylistModel (resps : List FetchResponse) :
    Option (Except (List Char) Manifest) :=
  match fetchPagesLoop resps [] [] with
  | none => none
  | some (.error e) => some (.error e)
  | some (.ok (name, items)) =>
    let trackList := buildSpotifyTracks items
    if trackList.isEmpty then some (.error noTracksSpotifyMsg)
    else
      some (.ok ⟨(if (cleanField name).isEmpty then "Spotify Playlist".toList
                  else cleanField name),
                 mkOutTracks trackList⟩)

/-- A JSON value (`undefined` is merged with `null`; numbers are irrelevant
to the claims and carried as integers). -/
inductive Json where
  | null
  | jbool (b : Bool)
  | jnum (n : Int)
  | jstr (s : List Char)
  | jarr (xs : List Json)
  | jobj (fields : List (List Char × Json))

/-- First binding of a key in an object's field list. -/
def lookupField : List (List Char × Json) → List Char → Option Json
  | [], _ => none
  | f :: t, k => if f.1 = k then some f.2 else lookupField t k

/-- Property access `v?.k`: a value on objects that bind `k`, otherwise
`undefined` (`none`). -/
def jget : Json → List Char → Option Json
  | .jobj fields, k => lookupField fields k
  | _, _ => none

/-- `v.data` when it is an array. -/
def dataArr (v : Json) : Option (List Json) :=
  match jget v ("data".toList) with
  | some (.jarr xs) => some xs
  | _ => none

/-- `Array.isArray(v)`. -/
def jIsArr : Json → Bool
  | .jarr _ => true
  | _ => false

/-- The elements of an array value (`[]` on non-arrays). -/
def jElems : Json → List Json
  | .jarr xs => xs
  | _ => []

/-- The response normalization inside `getAppleMusicUserPlaylists`
(`src/unnamed/part_001`): `Array.isArray(result?.data) ? result.data
: Array.isArray(result) ? result : []`. -/
def applePlaylistsOf (result : Json) : List Json :=
  match dataArr result with
  | some xs => xs
  | none => if jIsArr result then jElems result else []

/-- The normalization cascade as worded by the claim/spec: the value itself
if it is an array; else `.data`; else `.items`; else `.data.data` or
`.data.items`; else `.results`; else the empty list. -/
def specCatalogNormalize (v : Json) : List Json :=
  if jIsArr v then jElems v
  else match jget v ("data".toList) with
  | some (.jarr xs) => xs
  | _ => match jget v ("items".toList) with
    | some (.jarr xs) => xs
    | _ => match (jget v ("data".toList)).bind (fun d => jget d ("data".toList)) with
      | some (.jarr xs) => xs
      | _ => match (jget v ("data".toList)).bind (fun d => jget d ("items".toList)) with
        | some (.jarr xs) => xs
        | _ => match jget v ("results".toList) with
          | some (.jarr xs) => xs
          | _ => []

/-- `verifyAppleMusicMatch` from `src/services/playlistService.ts`.  The
IEEE-754 double arithmetic of the source is modelled by exact rational
arithmetic: every branch value lies in `[0.60, 0.90]`, at distance at least
`0.05` from each compared threshold, which exceeds any accumulated rounding
error of the source's five-term sums. -/
def verifyAppleMusicMatch (track : TrackRec) : ℚ × Bool :=
  let title := jsTrim track.title
  let artist := jsTrim track.artist
  let album := jsTrim track.album
  if title.isEmpty ∨ artist.isEmpty then (0, false)
  else
    let confidence : ℚ := 0.65
    let confidence := if 4 ≤ title.length then confidence + 0.1 else confidence
    let confidence := if 3 ≤ artist.length then confidence + 0.1 else confidence
    let confidence := if !album.isEmpty then confidence + 0.05 else confidence
    let lowered := toLowerList (title ++ ' ' :: artist ++ ' ' :: album)
    let confidence :=
      if TITLE_HINTS.any (fun hint => includesList lowered hint) then confidence - 0.05
      else confidence
    let confidence := min (0.95 : ℚ) (max (0.35 : ℚ) confidence)
    (confidence, decide ((0.5 : ℚ) ≤ confidence))

deriving instance DecidableEq for Except

/-! ## Auxiliary lemmas -/

theorem collapseWs_head (b : Char) (rest : List Char) :
    (collapseWs (b :: rest)).head? = some (if isWsChar b then ' ' else b) := by
  induction rest generalizing b with
  | nil => cases h : isWsChar b <;> simp [collapseWs, h]
  | cons c r ih =>
    cases hb : isWsChar b <;> cases hc : isWsChar c <;>
      simp [collapseWs, hb, hc, ih c]

theorem collapseWs_wsIsSpace (l : List Char) : WsIsSpace (collapseWs l) := by
  induction l with
  | nil => intro c hc _; simp [collapseWs] at hc
  | cons a t ih =>
    cases t with
    | nil =>
      intro c hc hw
      cases h : isWsChar a
      · simp [collapseWs, h] at hc
        subst hc
        rw [hw] at h
        exact Bool.noConfusion h
      · simp [collapseWs, h] at hc
        subst hc
        rfl
    | cons b r =>
      intro c hc hw
      cases ha : isWsChar a
      · rw [show collapseWs (a :: b :: r) = a :: collapseWs (b :: r) by
            simp [collapseWs, ha]] at hc
        rcases List.mem_cons.mp hc with h | h
        · subst h
          rw [hw] at ha
          exact Bool.noConfusion ha
        · exact ih c h hw
      · cases hb : isWsChar b
        · rw [show collapseWs (a :: b :: r) = ' ' :: collapseWs (b :: r) by
              simp [collapseWs, ha, hb]] at hc
          rcases List.mem_cons.mp hc with h | h
          · exact h
          · exact ih c h hw
        · rw [show collapseWs (a :: b :: r) = collapseWs (b :: r) by
              simp [collapseWs, ha, hb]] at hc
          exact ih c hc hw

theorem collapseWs_noAdjWs (l : List Char) : NoAdjWs (collapseWs l) := by
  induction l with
  | nil => simp [collapseWs, NoAdjWs]
  | cons a t ih =>
    cases t with
    | nil => cases h : isWsChar a <;> simp [collapseWs, NoAdjWs, h]
    | cons b r =>
      cases ha : isWsChar a
      · rw [show collapseWs (a :: b :: r) = a :: collapseWs (b :: r) by
            simp [collapseWs, ha]]
        refine List.chain'_cons'.mpr ⟨?_, ih⟩
        rintro y - ⟨h1, -⟩
        rw [ha] at h1
        exact Bool.noConfusion h1
      · cases hb : isWsChar b
        · rw [show collapseWs (a :: b :: r) = ' ' :: collapseWs (b :: r) by
              simp [collapseWs, ha, hb]]
          refine List.chain'_cons'.mpr ⟨?_, ih⟩
          intro y hy
          simp [collapseWs_head, hb] at hy
          subst hy
          rintro ⟨-, h2⟩
          rw [hb] at h2
          exact Bool.noConfusion h2
        · rw [show collapseWs (a :: b :: r) = collapseWs (b :: r) by
              simp [collapseWs, ha, hb]]
          exact ih

theorem collapseWs_eq_self (l : List Char) (h1 : WsIsSpace l) (h2 : NoAdjWs l) :
    collapseWs l = l := by
  induction l with
  | nil => rfl
  | cons a t ih =>
    cases t with
    | nil =>
      cases h : isWsChar a
      · simp [collapseWs, h]
      · have ha : a = ' ' := h1 a (by simp) h
        simp [collapseWs, h, ha]
    | cons b r =>
      have hpair : ¬(isWsChar a = true ∧ isWsChar b = true) :=
        (List.chain'_cons.mp h2).1
      have h2' : NoAdjWs (b :: r) := (List.chain'_cons.mp h2).2
      have h1' : WsIsSpace (b :: r) := fun c hc hw =>
        h1 c (List.mem_cons_of_mem _ hc) hw
      cases ha : isWsChar a
      · rw [show collapseWs (a :: b :: r) = a :: collapseWs (b :: r) by
            simp [collapseWs, ha]]
        rw [ih h1' h2']
      · have hb : isWsChar b = false := by
          cases hbc : isWsChar b
          · rfl
          · exact absurd ⟨ha, hbc⟩ hpair
        have haSp : a = ' ' := h1 a (by simp) ha
        rw [show collapseWs (a :: b :: r) = ' ' :: collapseWs (b :: r) by
            simp [collapseWs, ha, hb]]
        rw [ih h1' h2', haSp]

theorem wsIsSpace_dropWhile (p : Char → Bool) (l : List Char) (h : WsIsSpace l) :
    WsIsSpace (l.dropWhile p) :=
  fun c hc hw => h c ((List.dropWhile_suffix p).sublist.subset hc) hw

theorem wsIsSpace_rdropWhile (p : Char → Bool) (l : List Char) (h : WsIsSpace l) :
    WsIsSpace (l.rdropWhile p) :=
  fun c hc hw => h c ((List.rdropWhile_prefix p l).sublist.subset hc) hw

theorem noAdjWs_dropWhile (p : Char → Bool) (l : List Char) (h : NoAdjWs l) :
    NoAdjWs (l.dropWhile p) :=
  h.suffix (List.dropWhile_suffix p)

theorem noAdjWs_rdropWhile (p : Char → Bool) (l : List Char) (h : NoAdjWs l) :
    NoAdjWs (l.rdropWhile p) :=
  h.prefix (List.rdropWhile_prefix p l)

theorem dropWhile_jsTrim (l : List Char) :
    (jsTrim l).dropWhile isWsChar = jsTrim l := by
  rcases hcase : jsTrim l with _ | ⟨c, t⟩
  · rfl
  · obtain ⟨t2, ht2⟩ := List.rdropWhile_prefix isWsChar (l.dropWhile isWsChar)
    have ht2' : jsTrim l ++ t2 = l.dropWhile isWsChar := ht2
    rw [hcase] at ht2'
    have hne : l.dropWhile isWsChar ≠ [] := by
      rw [← ht2']
      simp
    have hhead := List.head_dropWhile_not isWsChar l hne
    have hsome : (l.dropWhile isWsChar).head? = some c := by
      rw [← ht2']
      rfl
    have hc : (l.dropWhile isWsChar).head hne = c := by
      have h3 := List.head?_eq_head hne
      rw [hsome] at h3
      exact (Option.some.inj h3).symm
    rw [hc] at hhead
    rw [List.dropWhile_cons, hhead]
    simp

theorem jsTrim_fix (l : List Char) : jsTrim (jsTrim l) = jsTrim l := by
  show ((jsTrim l).dropWhile isWsChar).rdropWhile isWsChar = jsTrim l
  rw [dropWhile_jsTrim l]
  show ((l.dropWhile isWsChar).rdropWhile isWsChar).rdropWhile isWsChar = jsTrim l
  rw [List.rdropWhile_idempotent]
  rfl

theorem cleanField_wsIsSpace (s : List Char) : WsIsSpace (cleanField s) :=
  wsIsSpace_rdropWhile _ _ (wsIsSpace_dropWhile _ _ (collapseWs_wsIsSpace _))

theorem cleanField_noAdjWs (s : List Char) : NoAdjWs (cleanField s) :=
  noAdjWs_rdropWhile _ _ (noAdjWs_dropWhile _ _ (collapseWs_noAdjWs _))

theorem jsTrim_cleanField (s : List Char) : jsTrim (cleanField s) = cleanField s :=
  jsTrim_fix _

/-! ## C1 -/

/-- C1 (counterexample): `cleanField` is *not* idempotent on every string:
on `' "x'` the first pass produces `'"x'` (the trim exposes a quote at the
boundary) and the second pass strips it, giving `'x'`. -/
theorem c1_counterexample :
    cleanField (cleanField (" \"x".toList)) ≠ cleanField (" \"x".toList) := by
  decide

/-- C1 (amended): `cleanField` is idempotent on every string whose cleaned
form neither starts nor ends with a quote character — in particular on every
string containing no quote character at all.  (The claim fails exactly when a
quote survives at a boundary of the cleaned form, as in the counterexample.) -/
theorem c1_cleanField_idem (s : List Char)
    (h1 : ((cleanField s).head?.all fun c => !isQuoteChar c) = true)
    (h2 : ((cleanField s).getLast?.all fun c => !isQuoteChar c) = true) :
    cleanField (cleanField s) = cleanField s := by
  have hQ1 : (cleanField s).dropWhile isQuoteChar = cleanField s := by
    rcases hcase : cleanField s with _ | ⟨c, t⟩
    · rfl
    · rw [hcase] at h1
      simp at h1
      rw [List.dropWhile_cons, h1]
      simp
  have hQ2 : (cleanField s).rdropWhile isQuoteChar = cleanField s := by
    apply List.rdropWhile_eq_self_iff.mpr
    intro hl
    rw [List.getLast?_eq_getLast _ hl] at h2
    simp at h2
    simp [h2]
  show jsTrim (collapseWs (((cleanField s).dropWhile isQuoteChar).rdropWhile
      isQuoteChar)) = cleanField s
  rw [hQ1, hQ2,
    collapseWs_eq_self _ (cleanField_wsIsSpace s) (cleanField_noAdjWs s),
    jsTrim_cleanField]

/-- C1 (witness): a concrete instance of the amended idempotence theorem. -/
theorem c1_witness :
    cleanField (cleanField ("'Hello   World'".toList)) =
      cleanField ("'Hello   World'".toList) :=
  c1_cleanField_idem ("'Hello   World'".toList) (by decide) (by decide)

/-! ## C2 and C3 -/

theorem foldl_acc_two (p : List Char → Bool) (l : List (List Char)) (n : Nat) :
    l.foldl (fun acc hint => if p hint then acc + 2 else acc) n
      = n + (l.map fun hint => if p hint then 2 else 0).sum := by
  induction l generalizing n with
  | nil => simp
  | cons a t ih =>
    rw [List.foldl_cons, ih, List.map_cons, List.sum_cons]
    cases h : p a <;> simp [h, Nat.add_assoc]

/-- C2: the Title/Artist Disambiguator follows exactly the claimed decision
order — left wins the title on a strictly higher title score with a
non-smaller right artist score, symmetrically for right, then the strictly
higher artist score decides, and a total tie yields `{title: left, artist:
right}`; moreover parsing `"The Weeknd & Ariana Grande - Die For You
(Remix)"` yields title `"Die For You (Remix)"` and artist
`"The Weeknd & Ariana Grande"`. -/
theorem c2_resolveTitleArtist :
    (∀ left right : List Char,
      (scoreTitle left > scoreTitle right → scoreArtist right ≥ scoreArtist left →
        resolveTitleArtist left right = ⟨left, right⟩) ∧
      (scoreTitle right > scoreTitle left → scoreArtist left ≥ scoreArtist right →
        resolveTitleArtist left right = ⟨right, left⟩) ∧
      (¬(scoreTitle left > scoreTitle right ∧ scoreArtist right ≥ scoreArtist left) →
        ¬(scoreTitle right > scoreTitle left ∧ scoreArtist left ≥ scoreArtist right) →
        scoreArtist right > scoreArtist left →
        resolveTitleArtist left right = ⟨left, right⟩) ∧
      (¬(scoreTitle left > scoreTitle right ∧ scoreArtist right ≥ scoreArtist left) →
        ¬(scoreTitle right > scoreTitle left ∧ scoreArtist left ≥ scoreArtist right) →
        ¬(scoreArtist right > scoreArtist left) →
        scoreArtist left > scoreArtist right →
        resolveTitleArtist left right = ⟨right, left⟩) ∧
      (scoreTitle left = scoreTitle right → scoreArtist left = scoreArtist right →
        resolveTitleArtist left right = ⟨left, right⟩)) ∧
    parseTrackLine ("The Weeknd & Ariana Grande - Die For You (Remix)".toList) =
      some ⟨"Die For You (Remix)".toList, "The Weeknd & Ariana Grande".toList, []⟩ := by
  constructor
  · intro left right
    refine ⟨?_, ?_, ?_, ?_, ?_⟩ <;>
      (intros
       simp only [resolveTitleArtist]
       split_ifs <;> first | rfl | omega)
  · decide

/-- C2 (witness): the decision rule applied at the example's two fragments
(right wins the title: 5 over 0 title points, and the left artist score 1 is
not smaller than the right one 0). -/
theorem c2_witness :
    resolveTitleArtist ("The Weeknd & Ariana Grande".toList)
        ("Die For You (Remix)".toList)
      = ⟨"Die For You (Remix)".toList, "The Weeknd & Ariana Grande".toList⟩ :=
  ((c2_resolveTitleArtist.1 _ _).2.1) (by decide) (by decide)

/-- C3 (counterexample): on the fragment `")"` the claimed formula scores 1
(a bracket among `( ) [ ] {`), but `scoreTitle` scores 0 — the regex class
`/[([{\]]/` does not contain the closing parenthesis. -/
theorem c3_counterexample :
    scoreTitle (")".toList) = 0 ∧ specScoreTitleClaimed (")".toList) = 1 := by
  constructor <;> decide

/-- C3 (amended): for every string, `scoreTitle` equals the claimed formula
with the bracket set corrected to the class the code tests: +2 per keyword of
`TITLE_HINTS` occurring case-insensitively as a substring (cumulative across
keywords), +1 if a character among `( [ { ]` occurs, +1 if a run of four
digits occurs. -/
theorem c3_scoreTitle_amended (value : List Char) :
    scoreTitle value = specScoreTitleAmended value := by
  simp only [scoreTitle, specScoreTitleAmended]
  rw [foldl_acc_two]
  cases h1 : value.any isCodeBracketChar <;> cases h2 : hasFourDigitRun value <;>
    simp [h1, h2]

/-! ## C4 -/

theorem fetchPagesLoop_fail (good : List SpBody) (bad : FetchResponse)
    (rest : List FetchResponse) (name : List Char) (acc : List SpItem)
    (hgood : ∀ b ∈ good, bodyContinues b = true)
    (hbad : respFails bad = true) :
    fetchPagesLoop (good.map FetchResponse.ok ++ bad :: rest) name acc
      = some (.error (failMsg bad)) := by
  induction good generalizing name acc with
  | nil =>
    simp only [List.map_nil, List.nil_append]
    cases bad with
    | transportError => rfl
    | httpError status => rfl
    | ok body => exact absurd hbad (by simp [respFails])
  | cons b g ih =>
    simp only [List.map_cons, List.cons_append]
    have hb : bodyContinues b = true := hgood b (by simp)
    simp only [fetchPagesLoop, hb, if_true]
    exact ih _ _ (fun x hx => hgood x (List.mem_cons_of_mem _ hx))

/-- C4: if any response of the pagination loop fails — a transport error or a
non-success HTTP status — after any number of successfully continued pages,
then `fetchSpotifyPlaylist` yields exactly the classified error (404 ↦
not-found, 401/403 ↦ access-denied, anything else including transport ↦
generic failure, three pairwise distinct messages) and nothing else: the
items accumulated from the earlier pages do not appear in the result. -/
theorem c4_fetch_abort (good : List SpBody) (bad : FetchResponse)
    (rest : List FetchResponse)
    (hgood : ∀ b ∈ good, bodyContinues b = true)
    (hbad : respFails bad = true) :
    fetchSpotifyPlaylistModel (good.map FetchResponse.ok ++ bad :: rest)
        = some (.error (failMsg bad)) ∧
      failMsg (.httpError 404) = notFoundMsg ∧
      failMsg (.httpError 401) = accessDeniedMsg ∧
      failMsg (.httpError 403) = accessDeniedMsg ∧
      failMsg .transportError = requestFailedMsg ∧
      (∀ status, status ≠ 404 → status ≠ 401 → status ≠ 403 →
        failMsg (.httpError status) = requestFailedMsg) ∧
      notFoundMsg ≠ accessDeniedMsg ∧ notFoundMsg ≠ requestFailedMsg ∧
      accessDeniedMsg ≠ requestFailedMsg := by
  refine ⟨?_, rfl, rfl, rfl, rfl, ?_, by decide, by decide, by decide⟩
  · simp [fetchSpotifyPlaylistModel,
      fetchPagesLoop_fail good bad rest [] [] hgood hbad]
  · intro status h1 h2 h3
    simp [failMsg, h1, h2, h3]

/-- C4 (witness): one successfully continued page followed by a 404 yields
exactly the not-found error. -/
theorem c4_witness :
    fetchSpotifyPlaylistModel
        [FetchResponse.ok (.envelope (some ("My List".toList))
            (some ⟨some [⟨some ⟨some ("Song".toList), some [some ("A".toList)],
                none⟩⟩], some ("url2".toList)⟩)),
         FetchResponse.httpError 404]
      = some (.error (failMsg (.httpError 404))) :=
  (c4_fetch_abort
      [.envelope (some ("My List".toList))
        (some ⟨some [⟨some ⟨some ("Song".toList), some [some ("A".toList)],
            none⟩⟩], some ("url2".toList)⟩)]
      (.httpError 404) [] (by decide) (by decide)).1

/-! ## C5 -/

/-- C5 (counterexample): the input `"Track A; Track B; Track C"` has exactly
one newline-delimited non-empty line, yet the segmenter returns three lines
through the semicolon fallback — the claimed exact-count invariant fails. -/
theorem c5_counterexample :
    newlineLines ("Track A; Track B; Track C".toList)
        = ["Track A; Track B; Track C".toList] ∧
      splitCandidateLines ("Track A; Track B; Track C".toList)
        = ["Track A".toList, "Track B".toList, "Track C".toList] := by
  constructor <;> decide

/-- C5 (amended): for any input with at least *two* newline-delimited
non-empty lines (so the single-line semicolon/bullet fallback cannot apply),
the segmenter returns exactly those trimmed lines, in order. -/
theorem c5_segmenter_amended (text : List Char)
    (h : 2 ≤ (newlineLines text).length) :
    splitCandidateLines text = newlineLines text := by
  simp only [splitCandidateLines]
  rw [if_neg (by omega)]

/-- C5 (witness): a two-line input is returned as its two trimmed lines. -/
theorem c5_witness :
    splitCandidateLines ("a\nb".toList) = newlineLines ("a\nb".toList) :=
  c5_segmenter_amended ("a\nb".toList) (by decide)

/-! ## C6 -/

/-- C6: an input whose trimmed text is a standalone http(s) URL that yields
no recognized Spotify playlist id is rejected by `parsePlaylistData` with the
unsupported-link error, not parsed as a text track list. -/
theorem c6_unsupported_link (s : List Char)
    (h1 : extractSpotifyPlaylistId (jsTrim s) = none)
    (h2 : isStandaloneUrl (jsTrim s) = true) :
    parsePlaylistData (.text s) = .error unsupportedLinkMsg := by
  have hne : jsTrim s ≠ [] := by
    intro hnil
    rw [hnil] at h2
    exact absurd h2 (by decide)
  have hne2 : (jsTrim s).isEmpty = false := by
    cases hl : jsTrim s
    · exact absurd hl hne
    · rfl
  simp [parsePlaylistData, hne2, h1, h2]

/-- C6 (witness): a bare non-Spotify URL is rejected as an unsupported
link. -/
theorem c6_witness :
    parsePlaylistData (.text ("https://example.com/x".toList))
      = .error unsupportedLinkMsg :=
  c6_unsupported_link ("https://example.com/x".toList) (by decide) (by decide)

/-! ## C7 -/

/-- C7 (counterexample): on the value `{items: [null]}` the cascade claimed
by the specification returns `[null]`, but the code's normalizer — which only
checks `.data` and then the value itself — returns `[]`. -/
theorem c7_counterexample :
    applePlaylistsOf (.jobj [("items".toList, .jarr [.null])]) = [] ∧
      specCatalogNormalize (.jobj [("items".toList, .jarr [.null])]) = [.null] ∧
      ([] : List Json) ≠ [Json.null] := by
  refine ⟨rfl, rfl, by simp⟩

/-- C7 (amended): the normalizer inside `getAppleMusicUserPlaylists` checks,
in order: whether `.data` is an array (and uses it); else whether the value
itself is an array (and uses it); else it returns the empty list.  It is a
total function — the `.items`, `.data.data`, `.data.items` and `.results`
shapes of the claimed cascade are never consulted. -/
theorem c7_normalizer_amended (v : Json) :
    (∀ xs, dataArr v = some xs → applePlaylistsOf v = xs) ∧
    (dataArr v = none → jIsArr v = true → applePlaylistsOf v = jElems v) ∧
    (dataArr v = none → jIsArr v = false → applePlaylistsOf v = []) := by
  refine ⟨?_, ?_, ?_⟩
  · intro xs h
    simp [applePlaylistsOf, h]
  · intro h1 h2
    simp [applePlaylistsOf, h1, h2]
  · intro h1 h2
    simp [applePlaylistsOf, h1, h2]

/-- C7 (witness): a `{data: [...]}` envelope is normalized to its `data`
array. -/
theorem c7_witness :
    applePlaylistsOf (.jobj [("data".toList, .jarr [.jnum 1])]) = [.jnum 1] :=
  (c7_normalizer_amended (.jobj [("data".toList, .jarr [.jnum 1])])).1 [.jnum 1] rfl

/-! ## C8 -/

/-- C8 (counterexample): on the header line `"Playlist: '"` the captured
group is `"'"`, whose normalization is empty; the code then falls back to the
fixed default name `"My Migrated Playlist"` instead of using the (empty)
normalized captured group as the claim states. -/
theorem c8_counterexample :
    matchPlaylistHeader ("Playlist: '".toList) = some ("'".toList) ∧
      cleanField ("'".toList) = [] ∧
      derivePlaylistName ["Playlist: '".toList, "Song - Artist".toList]
          (["Playlist: '".toList, "Song - Artist".toList].map parseTrackLine)
        = (defaultPlaylistName, 1) := by
  refine ⟨by decide, by decide, by decide⟩

/-- C8 (amended): when the first line matches the header pattern
`^playlist\s*[:\-]\s*(.+)$` the first line is excluded (start index 1) and
the playlist name is the normalized captured group *when that normalization
is non-empty*, the fixed default name otherwise; in particular the input
`"Playlist: Summer Hits\nSong - Artist"` produces the name `"Summer Hits"`
and exactly one track. -/
theorem c8_headerName :
    (∀ (l0 : List Char) (rest : List (List Char))
        (parsedTracks : List (Option ParsedTrack)) (cap : List Char),
      matchPlaylistHeader l0 = some cap →
      derivePlaylistName (l0 :: rest) parsedTracks
        = (if cleanField cap = [] then defaultPlaylistName else cleanField cap, 1)) ∧
    parsePlaylistData (.text ("Playlist: Summer Hits\nSong - Artist".toList)) =
      .ok (.parsed ⟨"Summer Hits".toList,
        [⟨"track-0".toList, "Song".toList, "Artist".toList, [], "pending".toList⟩]⟩) := by
  constructor
  · intro l0 rest parsedTracks cap h
    simp [derivePlaylistName, h]
  · decide

/-- C8 (witness): the header rule applied to the example's header line. -/
theorem c8_witness :
    derivePlaylistName ["Playlist: Summer Hits".toList] []
      = (if cleanField ("Summer Hits".toList) = [] then defaultPlaylistName
         else cleanField ("Summer Hits".toList), 1) :=
  c8_headerName.1 ("Playlist: Summer Hits".toList) [] [] ("Summer Hits".toList)
    (by decide)

/-! ## C9 and C10 -/

theorem verify_nonempty (track : TrackRec) (h1 : jsTrim track.title ≠ [])
    (h2 : jsTrim track.artist ≠ []) :
    (60/100 : ℚ) ≤ (verifyAppleMusicMatch track).1 ∧
    (verifyAppleMusicMatch track).1 ≤ 90/100 ∧
    (verifyAppleMusicMatch track).2 = true := by
  have e1 : (jsTrim track.title).isEmpty = false := by
    cases hl : jsTrim track.title
    · exact absurd hl h1
    · rfl
  have e2 : (jsTrim track.artist).isEmpty = false := by
    cases hl : jsTrim track.artist
    · exact absurd hl h2
    · rfl
  simp only [verifyAppleMusicMatch, e1, e2]
  norm_num
  split_ifs <;> norm_num [min_def, max_def]

/-- C9: for every track whose post-trim title and artist are both non-empty,
the confidence lies in `[0.35, 0.95]` and `matchFound` holds exactly when the
confidence is at least `0.5`; for every track whose post-trim title or artist
is empty, the confidence is exactly `0` and `matchFound` is false. -/
theorem c9_confidence_bounds (track : TrackRec) :
    (jsTrim track.title ≠ [] → jsTrim track.artist ≠ [] →
      (35/100 : ℚ) ≤ (verifyAppleMusicMatch track).1 ∧
      (verifyAppleMusicMatch track).1 ≤ 95/100 ∧
      ((verifyAppleMusicMatch track).2 = true ↔
        (1/2 : ℚ) ≤ (verifyAppleMusicMatch track).1)) ∧
    ((jsTrim track.title = [] ∨ jsTrim track.artist = []) →
      (verifyAppleMusicMatch track).1 = 0 ∧
      (verifyAppleMusicMatch track).2 = false) := by
  constructor
  · intro h1 h2
    have e1 : (jsTrim track.title).isEmpty = false := by
      cases hl : jsTrim track.title
      · exact absurd hl h1
      · rfl
    have e2 : (jsTrim track.artist).isEmpty = false := by
      cases hl : jsTrim track.artist
      · exact absurd hl h2
      · rfl
    simp only [verifyAppleMusicMatch, e1, e2]
    norm_num
  · intro h
    rcases h with h | h
    · have e1 : (jsTrim track.title).isEmpty = true := by rw [h]; rfl
      simp [verifyAppleMusicMatch, e1]
    · have e2 : (jsTrim track.artist).isEmpty = true := by rw [h]; rfl
      simp [verifyAppleMusicMatch, e2]

/-- C9 (witness): the bounds at a concrete non-empty track and the zero
confidence at a concrete track with an empty artist. -/
theorem c9_witness :
    ((35/100 : ℚ) ≤ (verifyAppleMusicMatch ⟨"track-0".toList, "Song".toList,
        "Artist".toList, [], "pending".toList⟩).1 ∧
      (verifyAppleMusicMatch ⟨"track-0".toList, "Song".toList, "Artist".toList,
        [], "pending".toList⟩).1 ≤ 95/100 ∧
      ((verifyAppleMusicMatch ⟨"track-0".toList, "Song".toList, "Artist".toList,
          [], "pending".toList⟩).2 = true ↔
        (1/2 : ℚ) ≤ (verifyAppleMusicMatch ⟨"track-0".toList, "Song".toList,
          "Artist".toList, [], "pending".toList⟩).1)) ∧
    ((verifyAppleMusicMatch ⟨"track-1".toList, "Song".toList, [], [],
        "pending".toList⟩).1 = 0 ∧
      (verifyAppleMusicMatch ⟨"track-1".toList, "Song".toList, [], [],
        "pending".toList⟩).2 = false) :=
  ⟨(c9_confidence_bounds _).1 (by decide) (by decide),
   (c9_confidence_bounds _).2 (Or.inr (by decide))⟩

/-- C10 (implicit): for every track whose post-trim title and artist are both
non-empty the confidence is at least `0.60`, hence strictly above the `0.35`
lower clamp, and `matchFound` is true; consequently `matchFound = false` is
reachable only through an empty post-trim title or artist. -/
theorem c10_matchFound (track : TrackRec) :
    (jsTrim track.title ≠ [] → jsTrim track.artist ≠ [] →
      (60/100 : ℚ) ≤ (verifyAppleMusicMatch track).1 ∧
      (35/100 : ℚ) < (verifyAppleMusicMatch track).1 ∧
      (verifyAppleMusicMatch track).2 = true) ∧
    ((verifyAppleMusicMatch track).2 = false →
      jsTrim track.title = [] ∨ jsTrim track.artist = []) := by
  constructor
  · intro h1 h2
    rcases verify_nonempty track h1 h2 with ⟨ha, _, hc⟩
    exact ⟨ha, lt_of_lt_of_le (by norm_num) ha, hc⟩
  · intro hfound
    by_contra hcon
    push_neg at hcon
    have h := (verify_nonempty track hcon.1 hcon.2).2.2
    rw [hfound] at h
    exact Bool.noConfusion h

/-- C10 (witness): the lower bound and `matchFound` at a concrete track, and
the converse direction at a concrete track with an empty title. -/
theorem c10_witness :
    ((60/100 : ℚ) ≤ (verifyAppleMusicMatch ⟨"track-0".toList, "Song".toList,
        "Artist".toList, [], "pending".toList⟩).1 ∧
      (35/100 : ℚ) < (verifyAppleMusicMatch ⟨"track-0".toList, "Song".toList,
        "Artist".toList, [], "pending".toList⟩).1 ∧
      (verifyAppleMusicMatch ⟨"track-0".toList, "Song".toList, "Artist".toList,
        [], "pending".toList⟩).2 = true) ∧
    (jsTrim (" ".toList) = [] ∨ jsTrim ("Artist".toList) = []) :=
  ⟨(c10_matchFound _).1 (by decide) (by decide),
   (c10_matchFound ⟨"track-1".toList, " ".toList, "Artist".toList, [],
      "pending".toList⟩).2 (by decide)⟩

end Spottle
